import Mathlib

/-!
Verification of the 5dcserver matchmaking/relay core (src/5dcserver/src/datatype.rs,
src/5dcserver/src/server.rs) against its natural-language specification.

The Rust code is shallowly embedded: enums become inductives carrying their wire
codes, the fixed-layout little-endian codec operates on lists of bytes (naturals
below 256), registries (HashMap / IndexMap) become association lists with the
corresponding insert/remove semantics, and the per-connection handlers become
pure functions from (config, server state, connection state, message, oracle)
to an `Except`-wrapped result, where the oracle supplies the random draws and
clock readings the real code obtains from `rand::thread_rng()` and
`Instant::now()`.
-/

namespace FiveDC

/-- Wire enum `OptionalColorWithRandom` (datatype.rs): None=0, Random=1, White=2, Black=3. -/
inductive OptionalColorWithRandom where
  | none
  | random
  | white
  | black
deriving DecidableEq, Repr

/-- Wire enum `Color` (datatype.rs): White=0, Black=1. -/
inductive Color where
  | white
  | black
deriving DecidableEq, Repr

/-- Wire enum `OptionalClock` (datatype.rs): None=0, NoClock=1, Short=2, Medium=3, Long=4. -/
inductive OptionalClock where
  | none
  | noClock
  | short
  | medium
  | long
deriving DecidableEq, Repr

/-- Wire enum `Visibility` (datatype.rs): Public=1, Private=2. -/
inductive Visibility where
  | Public
  | Private
deriving DecidableEq, Repr

/-- Wire enum `ActionType` (datatype.rs): Move=1 .. Header=6. -/
inductive ActionType where
  | move
  | undoMove
  | submitMoves
  | resetPuzzle
  | displayCheckReason
  | header
deriving DecidableEq, Repr

/-- Wire enum `HistoryMatchStatus` (datatype.rs): Completed=0, InProgress=1. -/
inductive HistoryMatchStatus where
  | completed
  | inProgress
deriving DecidableEq, Repr

/-- Wire code of `OptionalColorWithRandom` (the `#[repr(i64)]` discriminant). -/
def OptionalColorWithRandom.toCode : OptionalColorWithRandom → Int
  | .none => 0
  | .random => 1
  | .white => 2
  | .black => 3

/-- Inverse of the `OptionalColorWithRandom` discriminant (`enum_from_primitive`). -/
def OptionalColorWithRandom.ofCode : Int → Option OptionalColorWithRandom
  | 0 => some .none
  | 1 => some .random
  | 2 => some .white
  | 3 => some .black
  | _ => Option.none

/-- Wire code of `Color`. -/
def Color.toCode : Color → Int
  | .white => 0
  | .black => 1

/-- Inverse of the `Color` discriminant. -/
def Color.ofCode : Int → Option Color
  | 0 => some .white
  | 1 => some .black
  | _ => Option.none

/-- Wire code of `OptionalClock`. -/
def OptionalClock.toCode : OptionalClock → Int
  | .none => 0
  | .noClock => 1
  | .short => 2
  | .medium => 3
  | .long => 4

/-- Inverse of the `OptionalClock` discriminant. -/
def OptionalClock.ofCode : Int → Option OptionalClock
  | 0 => some .none
  | 1 => some .noClock
  | 2 => some .short
  | 3 => some .medium
  | 4 => some .long
  | _ => Option.none

/-- Wire code of `Visibility`. -/
def Visibility.toCode : Visibility → Int
  | .Public => 1
  | .Private => 2

/-- Inverse of the `Visibility` discriminant. -/
def Visibility.ofCode : Int → Option Visibility
  | 1 => some .Public
  | 2 => some .Private
  | _ => Option.none

/-- Wire code of `ActionType`. -/
def ActionType.toCode : ActionType → Int
  | .move => 1
  | .undoMove => 2
  | .submitMoves => 3
  | .resetPuzzle => 4
  | .displayCheckReason => 5
  | .header => 6

/-- Inverse of the `ActionType` discriminant. -/
def ActionType.ofCode : Int → Option ActionType
  | 1 => some .move
  | 2 => some .undoMove
  | 3 => some .submitMoves
  | 4 => some .resetPuzzle
  | 5 => some .displayCheckReason
  | 6 => some .header
  | _ => Option.none

/-- Wire code of `HistoryMatchStatus`. -/
def HistoryMatchStatus.toCode : HistoryMatchStatus → Int
  | .completed => 0
  | .inProgress => 1

/-- The fn `reversed` of `OptionalColorWithRandom` (datatype.rs): swaps White and
Black, everything else is returned unchanged. -/
def OptionalColorWithRandom.reversed : OptionalColorWithRandom → OptionalColorWithRandom
  | .white => .black
  | .black => .white
  | c => c

/-- The fn `determined` of `OptionalColorWithRandom` (datatype.rs): Random is
replaced using a draw from `gen_range(0..=1)` (0 gives White, 1 gives Black,
other draw values are unreachable in the source); any other color is kept.
The draw is passed explicitly as `d`. -/
def OptionalColorWithRandom.determined (c : OptionalColorWithRandom) (d : Nat) :
    OptionalColorWithRandom :=
  match c with
  | .random => if d = 0 then .white else .black
  | c => c

/-- The fn `reversed` of `Color` (datatype.rs): maps White to White and Black to
Black, i.e. it is the identity, unlike `OptionalColorWithRandom.reversed`. -/
def Color.reversed : Color → Color
  | .white => .white
  | .black => .black

/-- Struct `MatchSettings` (datatype.rs). `variant`, `passcode` and `match_id`
are raw `i64` values. -/
structure MatchSettings where
  color : OptionalColorWithRandom
  clock : OptionalClock
  variant : Int
  visibility : Visibility
  passcode : Int
  matchId : Int
deriving DecidableEq, Repr

/-- Struct `MatchSettingsWithoutVisibility` (datatype.rs). -/
structure MatchSettingsWithoutVisibility where
  color : OptionalColorWithRandom
  clock : OptionalClock
  variant : Int
  passcode : Int
  matchId : Int
deriving DecidableEq, Repr

/-- The fn `MatchSettingsWithoutVisibility::new` (datatype.rs): strip visibility. -/
def MatchSettingsWithoutVisibility.ofMatchSettings (m : MatchSettings) :
    MatchSettingsWithoutVisibility :=
  { color := m.color, clock := m.clock, variant := m.variant,
    passcode := m.passcode, matchId := m.matchId }

/-- The fn `MatchSettings::new` (datatype.rs): reattach a visibility. -/
def MatchSettings.ofWithout (m : MatchSettingsWithoutVisibility) (v : Visibility) :
    MatchSettings :=
  { color := m.color, clock := m.clock, variant := m.variant,
    visibility := v, passcode := m.passcode, matchId := m.matchId }

/-- Struct `ServerHistoryMatch` (datatype.rs); `time_start` is modelled as the
number of elapsed whole seconds at insertion. -/
structure ServerHistoryMatch where
  status : HistoryMatchStatus
  clock : OptionalClock
  variant : Int
  visibility : Visibility
  timeStart : Nat
deriving DecidableEq, Repr

/-- The fn `ServerHistoryMatch::new` (datatype.rs): a fresh InProgress entry,
timestamped with the current instant (passed as `now`). -/
def ServerHistoryMatch.new (m : MatchSettings) (now : Nat) : ServerHistoryMatch :=
  { status := .inProgress, clock := m.clock, variant := m.variant,
    visibility := m.visibility, timeStart := now }

/-- Struct `S2CMatchStartBody` (datatype.rs). The last field is named
`message_id` in datatype.rs (`seconds_passed` in the server.rs revision);
both denote the elapsed-seconds word of the S2CMatchStart payload. -/
structure S2CMatchStartBody where
  m : MatchSettingsWithoutVisibility
  matchId : Int
  messageId : Int
deriving DecidableEq, Repr

/-- Struct `C2SOrS2CActionBody` (datatype.rs). -/
structure C2SOrS2CActionBody where
  actionType : ActionType
  color : Color
  messageId : Int
  src_l : Int
  src_t : Int
  srcBoardColor : Color
  src_y : Int
  src_x : Int
  dst_l : Int
  dst_t : Int
  dstBoardColor : Color
  dst_y : Int
  dst_x : Int
deriving DecidableEq, Repr

/-- Struct `S2CMatchListServerHistoryMatch` (datatype.rs). -/
structure S2CMatchListServerHistoryMatch where
  status : HistoryMatchStatus
  clock : OptionalClock
  variant : Int
  visibility : Visibility
  secondsPassed : Nat
deriving DecidableEq, Repr

/-- Conversion `From<ServerHistoryMatch>` (datatype.rs): `seconds_passed` is the
time elapsed since the entry's `time_start`, taken at the current instant `now`. -/
def S2CMatchListServerHistoryMatch.ofHistory (now : Nat) (m : ServerHistoryMatch) :
    S2CMatchListServerHistoryMatch :=
  { status := m.status, clock := m.clock, variant := m.variant,
    visibility := m.visibility, secondsPassed := now - m.timeStart }

/-- Struct `S2CMatchListNonhostBody` (datatype.rs); the two `[...; 13]` arrays
are modelled as lists of length 13. -/
structure S2CMatchListNonhostBody where
  publicMatches : List MatchSettingsWithoutVisibility
  publicMatchesCount : Nat
  serverHistoryMatches : List S2CMatchListServerHistoryMatch
  serverHistoryMatchesCount : Nat
deriving DecidableEq, Repr

/-- Struct `S2CMatchListHostBody` (datatype.rs). -/
structure S2CMatchListHostBody where
  color : OptionalColorWithRandom
  clock : OptionalClock
  variant : Int
  passcode : Int
  body : S2CMatchListNonhostBody
deriving DecidableEq, Repr

/-- Enum `S2CMatchListBody` (datatype.rs). -/
inductive S2CMatchListBody where
  | host (body : S2CMatchListHostBody)
  | nonhost (body : S2CMatchListNonhostBody)
deriving DecidableEq, Repr

/-- The nonhost payload carried by either `S2CMatchListBody` variant. -/
def S2CMatchListBody.inner : S2CMatchListBody → S2CMatchListNonhostBody
  | .host b => b.body
  | .nonhost b => b

/-- Enum `C2SMatchCreateOrJoinBody` (datatype.rs). -/
inductive C2SMatchCreateOrJoinBody where
  | create (m : MatchSettings)
  | join (passcode : Int)
deriving DecidableEq, Repr

/-- Enum `S2CMatchCreateOrJoinResultBody` (datatype.rs). -/
inductive S2CMatchCreateOrJoinResultBody where
  | success (m : MatchSettings)
  | failed
deriving DecidableEq, Repr

/-- Enum `S2CMatchCancelResultBody` (datatype.rs). -/
inductive S2CMatchCancelResultBody where
  | success
  | failed
deriving DecidableEq, Repr

/-- Enum `Message` (datatype.rs). The internal rendezvous variants are named
`S2S*` in datatype.rs and `Internal*` in server.rs; this embedding uses the
server.rs names. `InternalInitialize` carries a channel sender in the source,
which has no data content, so the constructor is nullary here. -/
inductive Message where
  | c2sGreet (version1 version2 : Int)
  | s2cGreet
  | c2sMatchCreateOrJoin (body : C2SMatchCreateOrJoinBody)
  | s2cMatchCreateOrJoinResult (body : S2CMatchCreateOrJoinResultBody)
  | c2sMatchCancel
  | s2cMatchCancelResult (body : S2CMatchCancelResultBody)
  | s2cMatchStart (body : S2CMatchStartBody)
  | s2cOpponentLeft
  | c2sForfeit
  | c2sOrS2CAction (body : C2SOrS2CActionBody)
  | c2sMatchListRequest
  | s2cMatchList (body : S2CMatchListBody)
  | internalInitialize
  | internalJoin
  | internalMatchStart (body : S2CMatchStartBody)
  | internalForfeit
  | internalAction (body : C2SOrS2CActionBody)
deriving DecidableEq, Repr

/-- Enum `MessageType` (datatype.rs): wire codes 1..13 with 8 unused. -/
inductive MessageType where
  | c2sGreet
  | s2cGreet
  | c2sMatchCreateOrJoin
  | s2cMatchCreateOrJoinResult
  | c2sMatchCancel
  | s2cMatchCancelResult
  | s2cMatchStart
  | s2cOpponentLeft
  | c2sForfeit
  | c2sOrS2CAction
  | c2sMatchListRequest
  | s2cMatchList
deriving DecidableEq, Repr

/-- Wire code of `MessageType`. -/
def MessageType.toCode : MessageType → Int
  | .c2sGreet => 1
  | .s2cGreet => 2
  | .c2sMatchCreateOrJoin => 3
  | .s2cMatchCreateOrJoinResult => 4
  | .c2sMatchCancel => 5
  | .s2cMatchCancelResult => 6
  | .s2cMatchStart => 7
  | .s2cOpponentLeft => 9
  | .c2sForfeit => 10
  | .c2sOrS2CAction => 11
  | .c2sMatchListRequest => 12
  | .s2cMatchList => 13

/-- Inverse of the `MessageType` discriminant. -/
def MessageType.ofCode : Int → Option MessageType
  | 1 => some .c2sGreet
  | 2 => some .s2cGreet
  | 3 => some .c2sMatchCreateOrJoin
  | 4 => some .s2cMatchCreateOrJoinResult
  | 5 => some .c2sMatchCancel
  | 6 => some .s2cMatchCancelResult
  | 7 => some .s2cMatchStart
  | 9 => some .s2cOpponentLeft
  | 10 => some .c2sForfeit
  | 11 => some .c2sOrS2CAction
  | 12 => some .c2sMatchListRequest
  | 13 => some .s2cMatchList
  | _ => Option.none

/-- The fn `MessageType::legal_length` (datatype.rs): total payload length in
bytes for each message type. -/
def MessageType.legalLength : MessageType → Nat
  | .c2sGreet => 56
  | .s2cGreet => 56
  | .c2sMatchCreateOrJoin => 48
  | .s2cMatchCreateOrJoinResult => 64
  | .c2sMatchCancel => 9
  | .s2cMatchCancelResult => 16
  | .s2cMatchStart => 48
  | .s2cOpponentLeft => 9
  | .c2sForfeit => 9
  | .c2sOrS2CAction => 112
  | .c2sMatchListRequest => 9
  | .s2cMatchList => 1008

/-- The fn `write_i64_le` (datatype.rs): append the 8 little-endian bytes of the
two's-complement representation of `n`. -/
def writeI64LE (n : Int) : List Nat :=
  let u := (n % (2 ^ 64)).toNat
  [u % 256, u / 256 % 256, u / 256 ^ 2 % 256, u / 256 ^ 3 % 256,
   u / 256 ^ 4 % 256, u / 256 ^ 5 % 256, u / 256 ^ 6 % 256, u / 256 ^ 7 % 256]

/-- The fn `write_u64_le` (datatype.rs). -/
def writeU64LE (n : Nat) : List Nat :=
  writeI64LE (Int.ofNat (n % 2 ^ 64))

/-- The fn `read_i64_le` (datatype.rs): consume 8 little-endian bytes as a
signed 64-bit integer. `ws` is the byte list positioned at the read cursor. -/
def readI64LE (ws : List Nat) : Int :=
  let u : Nat := (ws.take 8).foldr (fun b acc => b % 256 + 256 * acc) 0
  if u < 2 ^ 63 then (u : Int) else (u : Int) - 2 ^ 64

/-- Word `i` (an 8-byte little-endian group) of a payload; the source reads
words sequentially with `read_i64_le`, each call consuming 8 bytes. -/
def payloadWord (bytes : List Nat) (i : Nat) : Int :=
  readI64LE (bytes.drop (8 * i))

/-- The fn `try_i64_to_enum` (datatype.rs): decode an enum discriminant,
failing with InvalidData on an unknown value. -/
def tryI64ToEnum {α : Type} (ofCode : Int → Option α) (v : Int) : Except String α :=
  match ofCode v with
  | some x => .ok x
  | Option.none => .error "Unknown value for enum type."

instance : Inhabited MatchSettingsWithoutVisibility :=
  ⟨{ color := .none, clock := .none, variant := 0, passcode := 0, matchId := 0 }⟩

instance : Inhabited S2CMatchListServerHistoryMatch :=
  ⟨{ status := .completed, clock := .none, variant := 0, visibility := .Public,
     secondsPassed := 0 }⟩

/-- The fn `Message::pack` (datatype.rs). The first word is the message type
code (written before the per-variant match in the source); the trailing check
compares the produced length with `legal_length` and fails InvalidData on
mismatch. Internal `S2S`/`Internal` messages fail InvalidData. -/
def Message.pack : Message → Except String (List Nat)
  | .s2cGreet =>
      packCheck .s2cGreet
        (writeI64LE MessageType.s2cGreet.toCode ++ writeI64LE 1 ++
          (List.replicate 5 (writeI64LE 0)).flatten)
  | .s2cMatchCreateOrJoinResult body =>
      packCheck .s2cMatchCreateOrJoinResult
        (writeI64LE MessageType.s2cMatchCreateOrJoinResult.toCode ++
          match body with
          | .success b =>
              writeI64LE 1 ++ writeI64LE 0 ++ writeI64LE b.color.toCode ++
                writeI64LE b.clock.toCode ++ writeI64LE b.variant ++
                writeI64LE b.visibility.toCode ++ writeI64LE b.passcode
          | .failed =>
              writeI64LE 0 ++ writeI64LE 1 ++
                (List.replicate 4 (writeI64LE 0)).flatten ++ writeI64LE (-1))
  | .s2cMatchCancelResult body =>
      packCheck .s2cMatchCancelResult
        (writeI64LE MessageType.s2cMatchCancelResult.toCode ++
          writeI64LE (match body with | .success => 1 | .failed => 0))
  | .s2cMatchStart body =>
      packCheck .s2cMatchStart
        (writeI64LE MessageType.s2cMatchStart.toCode ++
          writeI64LE body.m.clock.toCode ++ writeI64LE body.m.variant ++
          writeI64LE body.matchId ++ writeI64LE body.m.color.toCode ++
          writeI64LE body.messageId)
  | .s2cOpponentLeft =>
      packCheck .s2cOpponentLeft (writeI64LE MessageType.s2cOpponentLeft.toCode ++ [0])
  | .c2sOrS2CAction body =>
      packCheck .c2sOrS2CAction
        (writeI64LE MessageType.c2sOrS2CAction.toCode ++
          writeI64LE body.actionType.toCode ++ writeI64LE body.color.toCode ++
          writeI64LE body.messageId ++ writeI64LE body.src_l ++
          writeI64LE body.src_t ++ writeI64LE body.srcBoardColor.toCode ++
          writeI64LE body.src_y ++ writeI64LE body.src_x ++
          writeI64LE body.dst_l ++ writeI64LE body.dst_t ++
          writeI64LE body.dstBoardColor.toCode ++
          writeI64LE body.dst_y ++ writeI64LE body.dst_x)
  | .s2cMatchList body =>
      packCheck .s2cMatchList
        (writeI64LE MessageType.s2cMatchList.toCode ++
          (match body with
          | .host b =>
              writeI64LE 1 ++ writeI64LE b.color.toCode ++ writeI64LE b.clock.toCode ++
                writeI64LE b.variant ++ writeI64LE b.passcode ++ writeI64LE 1
          | .nonhost _ =>
              writeI64LE 1 ++ (List.replicate 5 (writeI64LE 0)).flatten) ++
          (let b := body.inner
           ((List.range b.publicMatchesCount).map (fun i =>
              let p := b.publicMatches.getD i default
              writeI64LE p.color.toCode ++ writeI64LE p.clock.toCode ++
                writeI64LE p.variant ++ writeI64LE p.passcode)).flatten ++
           (List.replicate ((13 - b.publicMatchesCount) * 4) (writeI64LE 0)).flatten ++
           writeU64LE b.publicMatchesCount ++
           ((List.range b.serverHistoryMatchesCount).map (fun i =>
              let h := b.serverHistoryMatches.getD i default
              writeI64LE h.status.toCode ++ writeI64LE h.clock.toCode ++
                writeI64LE h.variant ++ writeI64LE h.visibility.toCode ++
                writeU64LE h.secondsPassed)).flatten ++
           (List.replicate ((13 - b.serverHistoryMatchesCount) * 5) (writeI64LE 0)).flatten ++
           writeU64LE b.serverHistoryMatchesCount))
  | _ => .error "Message type should not be packed."
where
  /-- Default entries for the zero-filled slots of the match-list arrays. -/
  packCheck (t : MessageType) (bytes : List Nat) : Except String (List Nat) :=
    if bytes.length = t.legalLength then .ok bytes
    else .error "Message has illegal length."

/-- The fn `Message::unpack` (datatype.rs). Reads the type word, checks the
payload length against `legal_length`, then reads the fields in source order.
For `C2SOrS2CAction` the source reads, after `src_board_color`, first `src_x`
and then `src_y` (and after `dst_board_color` first `dst_x` then `dst_y`),
i.e. word 7 becomes `src_x` and word 8 becomes `src_y`. -/
def Message.unpack (bytes : List Nat) : Except String Message := do
  let length := bytes.length
  let t ← tryI64ToEnum MessageType.ofCode (payloadWord bytes 0)
  if length ≠ t.legalLength then
    .error "Message has illegal length."
  else
    match t with
    | .c2sGreet =>
        .ok (.c2sGreet (payloadWord bytes 1) (payloadWord bytes 2))
    | .c2sMatchCreateOrJoin =>
        let color := payloadWord bytes 1
        let clock := payloadWord bytes 2
        let visibility := payloadWord bytes 3
        let variant := payloadWord bytes 4
        let passcode := payloadWord bytes 5
        if passcode < 0 then do
          let color ← tryI64ToEnum OptionalColorWithRandom.ofCode color
          let clock ← tryI64ToEnum OptionalClock.ofCode clock
          let visibility ← tryI64ToEnum Visibility.ofCode visibility
          .ok (.c2sMatchCreateOrJoin (.create
            { color := color, clock := clock, variant := variant,
              visibility := visibility, passcode := passcode, matchId := -1 }))
        else
          .ok (.c2sMatchCreateOrJoin (.join passcode))
    | .c2sMatchCancel => .ok .c2sMatchCancel
    | .c2sForfeit => .ok .c2sForfeit
    | .c2sOrS2CAction => do
        let actionType ← tryI64ToEnum ActionType.ofCode (payloadWord bytes 1)
        let color ← tryI64ToEnum Color.ofCode (payloadWord bytes 2)
        let messageId := payloadWord bytes 3
        let src_l := payloadWord bytes 4
        let src_t := payloadWord bytes 5
        let srcBoardColor ← tryI64ToEnum Color.ofCode (payloadWord bytes 6)
        let src_x := payloadWord bytes 7
        let src_y := payloadWord bytes 8
        let dst_l := payloadWord bytes 9
        let dst_t := payloadWord bytes 10
        let dstBoardColor ← tryI64ToEnum Color.ofCode (payloadWord bytes 11)
        let dst_x := payloadWord bytes 12
        let dst_y := payloadWord bytes 13
        .ok (.c2sOrS2CAction
          { actionType := actionType, color := color, messageId := messageId,
            src_l := src_l, src_t := src_t, srcBoardColor := srcBoardColor,
            src_y := src_y, src_x := src_x, dst_l := dst_l, dst_t := dst_t,
            dstBoardColor := dstBoardColor, dst_y := dst_y, dst_x := dst_x })
    | .c2sMatchListRequest => .ok .c2sMatchListRequest
    | _ => .error "Message type should not be unpacked."

/-! Server state (server.rs). The registry `matches` maps passcodes to
rendezvous receivers, which carry no data content, so it is modelled by its
key set, a list of passcodes with `HashMap` insert/remove semantics.
`public_matches` is a `HashMap` from passcode to settings and
`server_history_matches` is an `IndexMap` from match id to history entry;
both are modelled as association lists, the latter insertion-ordered. -/

/-- Keys of an association list. -/
def keysOf {β : Type} (l : List (Int × β)) : List Int :=
  l.map Prod.fst

/-- HashMap insert restricted to the key set: inserting an existing key leaves
the keys unchanged. -/
def insertK (l : List Int) (k : Int) : List Int :=
  if k ∈ l then l else l ++ [k]

/-- HashMap remove restricted to the key set. -/
def removeK (l : List Int) (k : Int) : List Int :=
  l.filter (fun p => p ≠ k)

/-- HashMap insert on an association list: replaces the value of an existing
key (order of entries is irrelevant for a hash map). -/
def insertKey {β : Type} (l : List (Int × β)) (k : Int) (v : β) : List (Int × β) :=
  l.filter (fun p => p.1 ≠ k) ++ [(k, v)]

/-- HashMap remove on an association list. -/
def removeKey {β : Type} (l : List (Int × β)) (k : Int) : List (Int × β) :=
  l.filter (fun p => p.1 ≠ k)

/-- IndexMap insert (server_history_matches): an existing key keeps its
position and gets the new value; a new key is appended at the end. -/
def insertIdx {β : Type} (l : List (Int × β)) (k : Int) (v : β) : List (Int × β) :=
  if k ∈ keysOf l then l.map (fun p => if p.1 = k then (k, v) else p)
  else l ++ [(k, v)]

/-- The history insertion of `handle_connection_idle` (server.rs, join path):
insert the entry into the IndexMap, then, when the size exceeds 13, evict the
entry at index 0 (`shift_remove_index(0)`), i.e. the oldest insertion. -/
def historyInsert (h : List (Int × ServerHistoryMatch)) (k : Int)
    (v : ServerHistoryMatch) : List (Int × ServerHistoryMatch) :=
  if 13 < (insertIdx h k v).length then (insertIdx h k v).tail else insertIdx h k v

/-- The history update of `handle_connection_playing` and of the termination
cleanup (server.rs): `get_mut` on the match id and set the status to
Completed; an absent id changes nothing. -/
def markCompleted (h : List (Int × ServerHistoryMatch)) (mid : Int) :
    List (Int × ServerHistoryMatch) :=
  h.map (fun p => if p.1 = mid then (p.1, { p.2 with status := .completed }) else p)

/-- Struct `ServerConfig` (server.rs). `variants` is the configured allowed
set and `variants_without_random` the same set with the Random variant
removed (`ServerConfig::new`). The Random variant's `i64` identifier is kept
abstract as `randomVariant`. Limits are sizes, so naturals. -/
structure ServerConfig where
  banPublicMatch : Bool
  banPrivateMatch : Bool
  allowResetPuzzle : Bool
  randomVariant : Int
  variants : List Int
  variantsWithoutRandom : List Int
  limitConcurrentMatch : Nat
  limitPublicWaiting : Nat
deriving DecidableEq, Repr

/-- The computation of `variants_without_random` in `ServerConfig::new`
(server.rs): the allowed set with the Random variant removed (set semantics:
every occurrence goes). -/
def mkVariantsWithoutRandom (variants : List Int) (randomVariant : Int) : List Int :=
  variants.filter (fun v => v ≠ randomVariant)

/-- Struct `ServerState` (server.rs): the shared registries, the monotonic
match id counter, and the server start instant (left implicit; handler
oracles carry elapsed-seconds readings directly). -/
structure ServerState where
  matchId : Int
  waiting : List Int
  publicM : List (Int × MatchSettingsWithoutVisibility)
  history : List (Int × ServerHistoryMatch)
deriving DecidableEq, Repr

/-- Enum `ConnectionStateEnum` (server.rs). -/
inductive Phase where
  | idle
  | waiting
  | playing
deriving DecidableEq, Repr

/-- Struct `ConnectionState` (server.rs), without the socket and the shared
handle: the phase, the optional match settings `m`, and whether the two
rendezvous endpoints `tx`/`rx` are bound. -/
structure ConnState where
  phase : Phase
  m : Option MatchSettings
  hasTx : Bool
  hasRx : Bool
deriving DecidableEq, Repr

/-- The fn `generate_random_passcode_internal` (datatype.rs):
`gen_range(0..=2985983)`, a uniform draw over [0, 2985983] from the raw
randomness `r`. -/
def generateRandomPasscodeInternal (r : Nat) : Int :=
  Int.ofNat (r % 2985984)

/-- The fn `generate_random_passcode_internal_with_exceptions` (datatype.rs):
draw passcodes until one is not a key of the exceptions map (the waiting
registry). The source loops on an endless RNG; the model consumes a finite
list of raw draws and returns `none` when it is exhausted. -/
def generateRandomPasscodeInternalWithExceptions (exceptions : List Int)
    (rs : List Nat) : Option Int :=
  match rs with
  | [] => Option.none
  | r :: rest =>
      let passcode := generateRandomPasscodeInternal r
      if passcode ∈ exceptions then
        generateRandomPasscodeInternalWithExceptions exceptions rest
      else some passcode

/-- Modelled from the spec: the fn `determined` of `Variant`, called at
server.rs:454 but absent from src (datatype.rs declares `Variant` as a bare
`i64`). Per the spec, a Random variant is replaced by a uniform choice from
`config.variants \ x7bRandomx7d` (the `pool`, i.e. `variants_without_random`);
the choice is modelled by the raw draw `idx` reduced modulo the pool size.
A non-Random variant is returned unchanged. -/
def variantDetermined (randomVariant : Int) (pool : List Int) (idx : Nat)
    (v : Int) : Int :=
  if v = randomVariant then pool.getD (idx % pool.length) v else v

/-- Default slot content of the `public_matches` array in
`handle_match_list_request` (server.rs); the source fills unused slots with
`Variant::Standard`, whose `i64` code is 1 per the default enumeration. -/
def defaultPublicEntry : MatchSettingsWithoutVisibility :=
  { color := .none, clock := .none, variant := 1, passcode := 0, matchId := -1 }

/-- Default slot content of the `server_history_matches` array in
`handle_match_list_request` (server.rs). -/
def defaultHistoryEntry : S2CMatchListServerHistoryMatch :=
  { status := .completed, clock := .none, variant := 1, visibility := .Public,
    secondsPassed := 0 }

/-- The public-matches loop of `handle_match_list_request` (server.rs):
walk the registry in iteration order, skip the caller's own match (same
`match_id`), stop (`break`) once 13 entries are collected, and write each
kept entry at the next free slot. Returns the filled array and the count. -/
def buildPublicList (l : List (Int × MatchSettingsWithoutVisibility))
    (m : Option MatchSettings) (arr : List MatchSettingsWithoutVisibility)
    (cnt : Nat) : List MatchSettingsWithoutVisibility × Nat :=
  match l with
  | [] => (arr, cnt)
  | (_, pm) :: rest =>
      match m with
      | some mm =>
          if mm.matchId = pm.matchId then buildPublicList rest m arr cnt
          else if 13 ≤ cnt then (arr, cnt)
          else buildPublicList rest m (arr.set cnt pm) (cnt + 1)
      | Option.none =>
          if 13 ≤ cnt then (arr, cnt)
          else buildPublicList rest m (arr.set cnt pm) (cnt + 1)

/-- The history loop of `handle_match_list_request` (server.rs): entry `i` of
the history (in insertion order) is written at slot `len - i - 1`, so the
newest entry lands at slot 0. `i` is the running loop index. -/
def fillHistoryList (len : Nat) (i : Nat) (entries : List S2CMatchListServerHistoryMatch)
    (arr : List S2CMatchListServerHistoryMatch) : List S2CMatchListServerHistoryMatch :=
  match entries with
  | [] => arr
  | e :: rest => fillHistoryList len (i + 1) rest (arr.set (len - 1 - i) e)

/-- The fn `handle_match_list_request` (server.rs): build the bounded listing
body from the registries; with host settings `m` the reply is the Host
variant carrying the caller's four settings words, otherwise the Nonhost
variant. `now` is the elapsed-seconds reading used for `seconds_passed`. -/
def handleMatchListRequest (ss : ServerState) (m : Option MatchSettings)
    (now : Nat) : S2CMatchListBody :=
  let histCount := ss.history.length
  let pubs := buildPublicList ss.publicM m (List.replicate 13 defaultPublicEntry) 0
  let histArr := fillHistoryList histCount 0
    (ss.history.map (fun p => S2CMatchListServerHistoryMatch.ofHistory now p.2))
    (List.replicate 13 defaultHistoryEntry)
  let body : S2CMatchListNonhostBody :=
    { publicMatches := pubs.1, publicMatchesCount := pubs.2,
      serverHistoryMatches := histArr, serverHistoryMatchesCount := histCount }
  match m with
  | some mm =>
      .host { color := mm.color, clock := mm.clock, variant := mm.variant,
              passcode := mm.passcode, body := body }
  | Option.none => .nonhost body

/-- Result of one handler step: the updated shared state and connection
state, the messages written to the local client socket (in order), and the
messages sent to the rendezvous peer (in order). -/
structure HandlerResult where
  ss : ServerState
  cs : ConnState
  clientOut : List Message
  peerOut : List Message
deriving DecidableEq, Repr

/-- Oracle inputs of the Idle handler: the raw RNG draws consumed by passcode
generation, the `InternalMatchStart` body a joiner receives from its host,
and the current elapsed-seconds reading. -/
structure IdleOracle where
  draws : List Nat
  joinBody : S2CMatchStartBody
  now : Nat
deriving Repr

/-- The fn `handle_connection_idle` (server.rs). Policy rejections and
unexpected messages fail with an error (the connection is closed); the only
structured failure is join-of-unknown-passcode, which replies Failed and
leaves everything unchanged. -/
def handleConnectionIdle (cfg : ServerConfig) (ss : ServerState) (cs : ConnState)
    (msg : Message) (o : IdleOracle) : Except String HandlerResult :=
  match msg with
  | .c2sGreet _ _ => .ok ⟨ss, cs, [.s2cGreet], []⟩
  | .c2sMatchCreateOrJoin (.create m) =>
      if m.variant ∉ cfg.variants then
        .error "Variant is not allowed."
      else if cfg.limitConcurrentMatch ≤ ss.waiting.length then
        .error "Concurrent matches limit exceeded."
      else if m.visibility = .Public ∧ cfg.limitPublicWaiting ≤ ss.publicM.length then
        .error "Public waiting matches limit exceeded."
      else
        match generateRandomPasscodeInternalWithExceptions ss.waiting o.draws with
        | Option.none => .error "Random draws exhausted (the source loops forever)."
        | some passcode =>
            let m' : MatchSettings :=
              { m with passcode := passcode, matchId := ss.matchId }
            let publicM' :=
              if m'.visibility = .Public then
                insertKey ss.publicM passcode (MatchSettingsWithoutVisibility.ofMatchSettings m')
              else ss.publicM
            .ok ⟨{ ss with matchId := ss.matchId + 1,
                           waiting := insertK ss.waiting passcode,
                           publicM := publicM' },
                 { cs with phase := .waiting, m := some m', hasTx := true, hasRx := true },
                 [.s2cMatchCreateOrJoinResult (.success m')],
                 [.internalInitialize]⟩
  | .c2sMatchCreateOrJoin (.join passcode) =>
      if passcode ∈ ss.waiting then
        let visibility :=
          if passcode ∈ keysOf ss.publicM then Visibility.Public else Visibility.Private
        let body := o.joinBody
        let settings := MatchSettings.ofWithout body.m visibility
        .ok ⟨{ ss with waiting := removeK ss.waiting passcode,
                       publicM := removeKey ss.publicM passcode,
                       history := historyInsert ss.history body.matchId
                         (ServerHistoryMatch.new settings o.now) },
             { cs with phase := .playing, m := some settings, hasTx := true, hasRx := true },
             [.s2cMatchCreateOrJoinResult (.success settings), .s2cMatchStart body],
             [.internalJoin]⟩
      else
        .ok ⟨ss, cs, [.s2cMatchCreateOrJoinResult .failed], []⟩
  | .c2sMatchCancel => .ok ⟨ss, cs, [.s2cMatchCancelResult .failed], []⟩
  | .c2sForfeit => .ok ⟨ss, cs, [], []⟩
  | .c2sMatchListRequest =>
      .ok ⟨ss, cs, [.s2cMatchList (handleMatchListRequest ss Option.none o.now)], []⟩
  | _ => .error "Invalid message at state Idle."

/-- Oracle inputs of the Waiting handler: the raw draws resolving a Random
variant and a Random color, and the elapsed-seconds reading. -/
structure WaitOracle where
  variantIdx : Nat
  colorDraw : Nat
  now : Nat
deriving Repr

/-- The fn `handle_connection_waiting` (server.rs). The `cs.m.unwrap()` calls
of the source are modelled by failing when `m` is absent (in Waiting it never
is). On `InternalJoin` the settings are resolved (Random variant and Random
color replaced), `S2CMatchStart` goes to the local client with the resolved
color, and `InternalMatchStart` goes to the joiner with the color reversed. -/
def handleConnectionWaiting (cfg : ServerConfig) (ss : ServerState)
    (cs : ConnState) (msg : Message) (o : WaitOracle) : Except String HandlerResult :=
  match msg with
  | .c2sMatchCancel =>
      match cs.m with
      | some m =>
          .ok ⟨{ ss with publicM := removeKey ss.publicM m.passcode,
                         waiting := removeK ss.waiting m.passcode },
               { cs with phase := .idle, m := Option.none, hasTx := false, hasRx := false },
               [.s2cMatchCancelResult .success], []⟩
      | Option.none => .error "Connection in Waiting has no settings (unwrap)."
  | .c2sMatchListRequest =>
      .ok ⟨ss, cs, [.s2cMatchList (handleMatchListRequest ss cs.m o.now)], []⟩
  | .internalJoin =>
      match cs.m with
      | some m =>
          let body0 : S2CMatchStartBody :=
            { m := MatchSettingsWithoutVisibility.ofMatchSettings m,
              matchId := m.matchId, messageId := Int.ofNat o.now }
          let v' := variantDetermined cfg.randomVariant cfg.variantsWithoutRandom
            o.variantIdx body0.m.variant
          let c' := body0.m.color.determined o.colorDraw
          let body1 : S2CMatchStartBody :=
            { body0 with m := { body0.m with variant := v', color := c' } }
          let body2 : S2CMatchStartBody :=
            { body1 with m := { body1.m with color := c'.reversed } }
          .ok ⟨ss, { cs with phase := .playing },
               [.s2cMatchStart body1], [.internalMatchStart body2]⟩
      | Option.none => .error "Connection in Waiting has no settings (unwrap)."
  | _ => .error "Invalid message at state Waiting."

/-- Oracle inputs of the Playing handler: the elapsed-seconds reading. -/
structure PlayOracle where
  now : Nat
deriving Repr

/-- The fn `handle_connection_playing` (server.rs). Forfeits (own or the
peer's) mark the history entry Completed, drop the channels and return to
Idle; actions are relayed to the peer and echoed to the local client with
the elapsed-seconds word overwritten. -/
def handleConnectionPlaying (cfg : ServerConfig) (ss : ServerState)
    (cs : ConnState) (msg : Message) (o : PlayOracle) : Except String HandlerResult :=
  match msg with
  | .c2sForfeit =>
      match cs.m with
      | some m =>
          .ok ⟨{ ss with history := markCompleted ss.history m.matchId },
               { cs with phase := .idle, m := Option.none, hasTx := false, hasRx := false },
               [], [.internalForfeit]⟩
      | Option.none => .error "Connection in Playing has no settings (unwrap)."
  | .c2sOrS2CAction body =>
      if cfg.allowResetPuzzle = false ∧ body.actionType = .resetPuzzle then
        .error "Action of type ResetPuzzle is not allowed."
      else
        let body' := { body with messageId := Int.ofNat o.now }
        .ok ⟨ss, cs, [.c2sOrS2CAction body'], [.internalAction body']⟩
  | .c2sMatchListRequest =>
      .ok ⟨ss, cs, [.s2cMatchList (handleMatchListRequest ss Option.none o.now)], []⟩
  | .internalForfeit =>
      match cs.m with
      | some m =>
          .ok ⟨{ ss with history := markCompleted ss.history m.matchId },
               { cs with phase := .idle, m := Option.none, hasTx := false, hasRx := false },
               [.s2cOpponentLeft], []⟩
      | Option.none => .error "Connection in Playing has no settings (unwrap)."
  | .internalAction body => .ok ⟨ss, cs, [.c2sOrS2CAction body], []⟩
  | _ => .error "Invalid message at state Playing."

/-- The termination cleanup of `handle_connection` (server.rs): on every exit
path, a Waiting host removes its entry from `public_matches` (only when its
visibility is Public) and from `matches`; a Playing connection marks its
history entry Completed; an Idle connection changes nothing. The source
unwraps `cs.m`, which is always bound outside Idle; the fallback branch is
unreachable. -/
def connectionCleanup (ss : ServerState) (cs : ConnState) : ServerState :=
  match cs.phase, cs.m with
  | .waiting, some m =>
      { ss with
        publicM := if m.visibility = .Public then removeKey ss.publicM m.passcode
                   else ss.publicM,
        waiting := removeK ss.waiting m.passcode }
  | .playing, some m => { ss with history := markCompleted ss.history m.matchId }
  | _, _ => ss

end FiveDC

namespace FiveDC

/- Concrete fixtures used by counterexamples and witnesses. -/

def cfgDefault : ServerConfig :=
  { banPublicMatch := false, banPrivateMatch := false, allowResetPuzzle := false,
    randomVariant := 11, variants := [1, 2, 11], variantsWithoutRandom := [1, 2],
    limitConcurrentMatch := 2000, limitPublicWaiting := 100 }

def cfgBanPublic : ServerConfig :=
  { banPublicMatch := true, banPrivateMatch := false, allowResetPuzzle := false,
    randomVariant := 11, variants := [1, 2, 11], variantsWithoutRandom := [1, 2],
    limitConcurrentMatch := 2000, limitPublicWaiting := 100 }

def ssEmpty : ServerState := { matchId := 1, waiting := [], publicM := [], history := [] }

def ssWaiting5 : ServerState := { matchId := 2, waiting := [5], publicM := [], history := [] }

def csIdle : ConnState := { phase := .idle, m := Option.none, hasTx := false, hasRx := false }

def startBody0 : S2CMatchStartBody :=
  { m := { color := .white, clock := .short, variant := 1, passcode := 5, matchId := 1 },
    matchId := 1, messageId := 0 }

def idleOracle0 : IdleOracle := { draws := [0], joinBody := startBody0, now := 0 }

def createPublicSettings : MatchSettings :=
  { color := .white, clock := .short, variant := 1, visibility := .Public,
    passcode := -1, matchId := -1 }

def actionBodyC1 : C2SOrS2CActionBody :=
  { actionType := .move, color := .white, messageId := 7, src_l := 1, src_t := 2,
    srcBoardColor := .black, src_y := 3, src_x := 4, dst_l := 5, dst_t := 6,
    dstBoardColor := .white, dst_y := 8, dst_x := 9 }

/-- Invariant of claim C4: every key of public_matches is a key of
waiting_matches. -/
def publicSubWaiting (ss : ServerState) : Prop :=
  ∀ p, p ∈ keysOf ss.publicM → p ∈ ss.waiting

/-- Fixture: a host's settings while in Waiting. -/
def matchW : MatchSettings :=
  { color := .random, clock := .short, variant := 11, visibility := .Public,
    passcode := 5, matchId := 1 }

/-- Fixture: a connection in Waiting. -/
def csWaiting : ConnState :=
  { phase := .waiting, m := some matchW, hasTx := true, hasRx := true }

/-- Fixture: a connection in Playing. -/
def csPlaying : ConnState :=
  { phase := .playing, m := some matchW, hasTx := true, hasRx := true }

/-- Fixture: oracle for the Waiting handler. -/
def waitOracle0 : WaitOracle := { variantIdx := 0, colorDraw := 0, now := 3 }

/-- Fixture: oracle for the Playing handler. -/
def playOracle0 : PlayOracle := { now := 4 }

/-- Fixture: the handler result of the accepted Create used by the C4 witness. -/
def resC4 : HandlerResult :=
  { ss := { matchId := 2, waiting := [0],
            publicM := [(0, { color := .white, clock := .short, variant := 1,
                              passcode := 0, matchId := 1 })],
            history := [] },
    cs := { phase := .waiting,
            m := some { color := .white, clock := .short, variant := 1,
                        visibility := .Public, passcode := 0, matchId := 1 },
            hasTx := true, hasRx := true },
    clientOut := [.s2cMatchCreateOrJoinResult (.success
      { color := .white, clock := .short, variant := 1, visibility := .Public,
        passcode := 0, matchId := 1 })],
    peerOut := [.internalInitialize] }

/-- Fixture: a server state with a single history entry. -/
def ssHist1 : ServerState :=
  { matchId := 3, waiting := [], publicM := [],
    history := [(1, { status := .inProgress, clock := .short, variant := 1,
                      visibility := .Public, timeStart := 2 })] }

/-- C10: `Color::reversed` is the identity function, mapping White to White and
Black to Black, while `OptionalColorWithRandom::reversed` swaps White and Black. -/
theorem C10_color_reversed_is_identity :
    (∀ c : Color, c.reversed = c) ∧
    OptionalColorWithRandom.reversed .white = .black ∧
    OptionalColorWithRandom.reversed .black = .white := by
  refine ⟨fun c => ?_, rfl, rfl⟩
  cases c <;> rfl

/-- C1: decoding the encoding of a C2SOrS2CAction body does not yield the body
back; the `(y, x)` coordinate pairs are written as `y` then `x` but read as `x`
then `y`, so the roundtrip swaps `src_y` with `src_x` and `dst_y` with `dst_x`.
Evaluated at a concrete body with `src_y = 3, src_x = 4, dst_y = 8, dst_x = 9`. -/
theorem C1_action_roundtrip_swaps_xy :
    (Message.pack (.c2sOrS2CAction actionBodyC1)).bind Message.unpack =
      .ok (.c2sOrS2CAction
        { actionBodyC1 with src_y := 4, src_x := 3, dst_y := 9, dst_x := 8 }) ∧
    Message.c2sOrS2CAction
        { actionBodyC1 with src_y := 4, src_x := 3, dst_y := 9, dst_x := 8 } ≠
      .c2sOrS2CAction actionBodyC1 := by
  exact ⟨rfl, by decide⟩

/-- C7: with `ban_public_match` set, a Create with visibility Public is NOT
rejected: `handle_connection_idle` never consults `ban_public_match` or
`ban_private_match`, so the Create is accepted, replies Success and moves the
connection to Waiting. -/
theorem C7_ban_public_match_not_enforced :
    cfgBanPublic.banPublicMatch = true ∧
    (handleConnectionIdle cfgBanPublic ssEmpty csIdle
        (.c2sMatchCreateOrJoin (.create createPublicSettings)) idleOracle0).map
      (fun r => (r.cs.phase, r.clientOut)) =
      .ok (.waiting,
        [.s2cMatchCreateOrJoinResult (.success
          { color := .white, clock := .short, variant := 1, visibility := .Public,
            passcode := 0, matchId := 1 })]) := by
  exact ⟨rfl, rfl⟩

/-- C2 counterexample: a connection in Idle that sends Join with a passcode
present in waiting_matches moves directly to Playing in one handler step,
contradicting the claim that no step moves Idle directly to Playing. -/
theorem C2_counterexample_idle_to_playing :
    csIdle.phase = .idle ∧
    (handleConnectionIdle cfgDefault ssWaiting5 csIdle
        (.c2sMatchCreateOrJoin (.join 5)) idleOracle0).map (fun r => r.cs.phase) =
      .ok .playing := by
  exact ⟨rfl, rfl⟩

/-- C5: a Join whose passcode is not a waiting_matches key replies
`S2CMatchCreateOrJoinResult::Failed`, keeps the connection state (hence the
phase) unchanged, and changes no registry: the whole server state is returned
untouched and nothing is sent to any peer. -/
theorem C5_join_unknown_passcode_fails_cleanly (cfg : ServerConfig)
    (ss : ServerState) (cs : ConnState) (p : Int) (o : IdleOracle)
    (h : p ∉ ss.waiting) :
    handleConnectionIdle cfg ss cs (.c2sMatchCreateOrJoin (.join p)) o =
      .ok ⟨ss, cs, [.s2cMatchCreateOrJoinResult .failed], []⟩ := by
  simp [handleConnectionIdle, h]

/-- Witness for C5 at passcode 42424242 against an empty waiting registry. -/
theorem C5_join_unknown_passcode_fails_cleanly_witness :
    (42424242 : Int) ∉ ssEmpty.waiting ∧
    handleConnectionIdle cfgDefault ssEmpty csIdle
        (.c2sMatchCreateOrJoin (.join 42424242)) idleOracle0 =
      .ok ⟨ssEmpty, csIdle, [.s2cMatchCreateOrJoinResult .failed], []⟩ :=
  ⟨by decide, C5_join_unknown_passcode_fails_cleanly cfgDefault ssEmpty csIdle
    42424242 idleOracle0 (by decide)⟩

/-- C8: any passcode produced by
`generate_random_passcode_internal_with_exceptions` for the current waiting
registry lies in [0, 2985983] and is not a key of that registry. -/
theorem C8_generated_passcode_fresh_and_in_range (ss : ServerState)
    (rs : List Nat) (p : Int)
    (h : generateRandomPasscodeInternalWithExceptions ss.waiting rs = some p) :
    0 ≤ p ∧ p ≤ 2985983 ∧ p ∉ ss.waiting := by
  induction rs with
  | nil => simp [generateRandomPasscodeInternalWithExceptions] at h
  | cons r rest ih =>
      rw [generateRandomPasscodeInternalWithExceptions] at h
      by_cases hm : generateRandomPasscodeInternal r ∈ ss.waiting
      · rw [if_pos hm] at h
        exact ih h
      · rw [if_neg hm] at h
        have hp : p = generateRandomPasscodeInternal r := (Option.some.inj h).symm
        subst hp
        refine ⟨?_, ?_, hm⟩
        · exact Int.ofNat_nonneg _
        · have h1 : r % 2985984 ≤ 2985983 := by omega
          show Int.ofNat (r % 2985984) ≤ 2985983
          show ((r % 2985984 : Nat) : Int) ≤ 2985983
          exact_mod_cast h1

/-- Witness for C8: one raw draw of 42 against an empty waiting registry. -/
theorem C8_generated_passcode_fresh_and_in_range_witness :
    generateRandomPasscodeInternalWithExceptions ssEmpty.waiting [42] = some 42 ∧
    (0 ≤ (42 : Int) ∧ (42 : Int) ≤ 2985983 ∧ (42 : Int) ∉ ssEmpty.waiting) :=
  ⟨rfl, C8_generated_passcode_fresh_and_in_range ssEmpty [42] 42 rfl⟩

/-- C6: the history insertion performed at join keeps the log at 13 entries or
fewer, and when it evicts (new key into a full log of 13) the evicted entry is
the head of the log, i.e. the oldest insertion; status updates (`get_mut`)
never change the size. -/
theorem C6_history_capped_at_13_oldest_evicted
    (h : List (Int × ServerHistoryMatch)) (k mid : Int) (v : ServerHistoryMatch)
    (hlen : h.length ≤ 13) :
    (historyInsert h k v).length ≤ 13 ∧
    (k ∉ keysOf h → h.length = 13 → historyInsert h k v = h.tail ++ [(k, v)]) ∧
    (markCompleted h mid).length = h.length := by
  have hlen' : (insertIdx h k v).length ≤ 14 := by
    unfold insertIdx
    by_cases hk : k ∈ keysOf h
    · simp [hk]; omega
    · simp [hk]; omega
  refine ⟨?_, ?_, by simp [markCompleted]⟩
  · unfold historyInsert
    split
    · simp only [List.length_tail]
      omega
    · omega
  · intro hk h13
    unfold historyInsert
    rw [insertIdx, if_neg hk]
    have : 13 < (h ++ [(k, v)]).length := by simp [h13]
    rw [if_pos this]
    cases h with
    | nil => simp at h13
    | cons a t => simp

/-- Witness for C6: inserting a fresh key into a one-entry history. -/
theorem C6_history_capped_at_13_oldest_evicted_witness :
    ssHist1.history.length ≤ 13 ∧
    ((historyInsert ssHist1.history 2
        { status := .inProgress, clock := .short, variant := 2,
          visibility := .Private, timeStart := 4 }).length ≤ 13 ∧
     ((2 : Int) ∉ keysOf ssHist1.history → ssHist1.history.length = 13 →
       historyInsert ssHist1.history 2
          { status := .inProgress, clock := .short, variant := 2,
            visibility := .Private, timeStart := 4 } =
         ssHist1.history.tail ++ [(2,
           { status := .inProgress, clock := .short, variant := 2,
             visibility := .Private, timeStart := 4 })]) ∧
     (markCompleted ssHist1.history 1).length = ssHist1.history.length) :=
  ⟨by decide, C6_history_capped_at_13_oldest_evicted ssHist1.history 2 1
    { status := .inProgress, clock := .short, variant := 2,
      visibility := .Private, timeStart := 4 } (by decide)⟩

/-- Membership in the key set after a HashMap key insert. -/
theorem mem_insertK {l : List Int} {k p : Int} : p ∈ insertK l k ↔ p ∈ l ∨ p = k := by
  unfold insertK
  by_cases hk : k ∈ l
  · rw [if_pos hk]
    constructor
    · exact Or.inl
    · rintro (h | rfl)
      · exact h
      · exact hk
  · rw [if_neg hk]
    simp

/-- Membership in the key set after a HashMap key remove. -/
theorem mem_removeK {l : List Int} {k p : Int} : p ∈ removeK l k ↔ p ∈ l ∧ p ≠ k := by
  unfold removeK
  simp

/-- Keys present after a HashMap insert come from the inserted key or the map. -/
theorem mem_keysOf_insertKey {β : Type} {l : List (Int × β)} {k p : Int} {v : β}
    (h : p ∈ keysOf (insertKey l k v)) : p = k ∨ p ∈ keysOf l := by
  unfold insertKey at h
  unfold keysOf at h ⊢
  simp only [List.map_append, List.mem_append, List.mem_map, List.mem_filter] at h
  rcases h with ⟨q, ⟨hq, _⟩, rfl⟩ | h
  · exact Or.inr (List.mem_map.mpr ⟨q, hq, rfl⟩)
  · simp at h
    exact Or.inl h.symm

/-- Keys present after a HashMap remove were present before and differ from the
removed key. -/
theorem mem_keysOf_removeKey {β : Type} {l : List (Int × β)} {k p : Int}
    (h : p ∈ keysOf (removeKey l k)) : p ∈ keysOf l ∧ p ≠ k := by
  unfold removeKey at h
  unfold keysOf at h ⊢
  simp only [List.mem_map, List.mem_filter] at h
  rcases h with ⟨q, ⟨hq, hne⟩, rfl⟩
  simp at hne
  exact ⟨List.mem_map.mpr ⟨q, hq, rfl⟩, hne⟩

/-- C4: the inclusion public_matches ⊆ waiting_matches (on passcode keys) is
preserved by an accepted Create, by a Join (successful or failed), by a
Cancel received in Waiting, and by the termination cleanup; for the cleanup
of a Private host the reachable-state fact that a Private host's passcode is
not a public_matches key is assumed. -/
theorem C4_public_subset_waiting_preserved :
    (∀ cfg ss cs m o r,
      handleConnectionIdle cfg ss cs (.c2sMatchCreateOrJoin (.create m)) o = .ok r →
      publicSubWaiting ss → publicSubWaiting r.ss) ∧
    (∀ cfg ss cs p o r,
      handleConnectionIdle cfg ss cs (.c2sMatchCreateOrJoin (.join p)) o = .ok r →
      publicSubWaiting ss → publicSubWaiting r.ss) ∧
    (∀ cfg ss cs o r,
      handleConnectionWaiting cfg ss cs .c2sMatchCancel o = .ok r →
      publicSubWaiting ss → publicSubWaiting r.ss) ∧
    (∀ ss cs, publicSubWaiting ss →
      (∀ m, cs.phase = .waiting → cs.m = some m → m.visibility ≠ .Public →
        m.passcode ∉ keysOf ss.publicM) →
      publicSubWaiting (connectionCleanup ss cs)) := by
  refine ⟨?_, ?_, ?_, ?_⟩
  · -- Create
    intro cfg ss cs m o r hok hincl
    by_cases h1 : m.variant ∉ cfg.variants
    · simp [handleConnectionIdle, h1] at hok
    by_cases h2 : cfg.limitConcurrentMatch ≤ ss.waiting.length
    · simp [handleConnectionIdle, h1, h2] at hok
    by_cases h3 : m.visibility = .Public ∧ cfg.limitPublicWaiting ≤ ss.publicM.length
    · simp [handleConnectionIdle, h1, h2, h3] at hok
    rcases hgen : generateRandomPasscodeInternalWithExceptions ss.waiting o.draws with _ | pass
    · simp [handleConnectionIdle, h1, h2, h3, hgen] at hok
    · simp only [handleConnectionIdle, if_neg h1, if_neg h2, if_neg h3, hgen] at hok
      obtain rfl := Except.ok.inj hok
      intro p hp
      dsimp only at hp ⊢
      by_cases hv : m.visibility = Visibility.Public
      · rw [if_pos (by simpa using hv)] at hp
        rcases mem_keysOf_insertKey hp with rfl | hp'
        · exact mem_insertK.mpr (Or.inr rfl)
        · exact mem_insertK.mpr (Or.inl (hincl p hp'))
      · rw [if_neg (by simpa using hv)] at hp
        exact mem_insertK.mpr (Or.inl (hincl p hp))
  · -- Join
    intro cfg ss cs p o r hok hincl
    by_cases hmem : p ∈ ss.waiting
    · simp only [handleConnectionIdle, if_pos hmem] at hok
      obtain rfl := Except.ok.inj hok
      intro q hq
      dsimp only at hq ⊢
      rcases mem_keysOf_removeKey hq with ⟨hq', hne⟩
      exact mem_removeK.mpr ⟨hincl q hq', hne⟩
    · simp only [handleConnectionIdle, if_neg hmem] at hok
      obtain rfl := Except.ok.inj hok
      exact hincl
  · -- Cancel in Waiting
    intro cfg ss cs o r hok hincl
    rcases hm : cs.m with _ | m
    · simp [handleConnectionWaiting, hm] at hok
    · simp only [handleConnectionWaiting, hm] at hok
      obtain rfl := Except.ok.inj hok
      intro q hq
      dsimp only at hq ⊢
      rcases mem_keysOf_removeKey hq with ⟨hq', hne⟩
      exact mem_removeK.mpr ⟨hincl q hq', hne⟩
  · -- Termination cleanup
    intro ss cs hincl hpriv
    obtain ⟨ph, mm, tx, rx⟩ := cs
    cases ph with
    | idle => cases mm <;> exact hincl
    | waiting =>
        cases mm with
        | none => exact hincl
        | some m =>
            intro q hq
            simp only [connectionCleanup] at hq ⊢
            by_cases hv : m.visibility = Visibility.Public
            · rw [if_pos hv] at hq
              rcases mem_keysOf_removeKey hq with ⟨hq', hne⟩
              exact mem_removeK.mpr ⟨hincl q hq', hne⟩
            · rw [if_neg hv] at hq
              have hnp : m.passcode ∉ keysOf ss.publicM := hpriv m rfl rfl hv
              have hne : q ≠ m.passcode := fun h => hnp (h ▸ hq)
              exact mem_removeK.mpr ⟨hincl q hq, hne⟩
    | playing => cases mm <;> exact hincl

/-- C2 (amended): on every successful handler step the phase moves along
Idle → Idle or Idle → Waiting or Idle → Playing (the last exactly on a Join
whose passcode is waiting), Waiting → Idle or Waiting → Waiting or
Waiting → Playing (the last exactly on InternalJoin), and Playing → Idle or
Playing → Playing; in particular a Playing connection never returns to
Waiting directly. -/
theorem C2_amended_phase_transition_graph :
    (∀ cfg ss cs msg o r, handleConnectionIdle cfg ss cs msg o = .ok r →
      cs.phase = .idle →
      (r.cs.phase = .idle ∨ r.cs.phase = .waiting ∨ r.cs.phase = .playing) ∧
      (r.cs.phase = .playing →
        ∃ p, msg = .c2sMatchCreateOrJoin (.join p) ∧ p ∈ ss.waiting)) ∧
    (∀ cfg ss cs msg o r, handleConnectionWaiting cfg ss cs msg o = .ok r →
      cs.phase = .waiting →
      (r.cs.phase = .idle ∨ r.cs.phase = .waiting ∨ r.cs.phase = .playing) ∧
      (r.cs.phase = .playing → msg = .internalJoin)) ∧
    (∀ cfg ss cs msg o r, handleConnectionPlaying cfg ss cs msg o = .ok r →
      cs.phase = .playing →
      r.cs.phase = .idle ∨ r.cs.phase = .playing) := by
  refine ⟨?_, ?_, ?_⟩
  · intro cfg ss cs msg o r hok hidle
    cases msg with
    | c2sGreet a b =>
        simp only [handleConnectionIdle] at hok
        obtain rfl := Except.ok.inj hok
        exact ⟨Or.inl hidle, fun hpl => absurd (hidle.symm.trans hpl) (by decide)⟩
    | c2sMatchCreateOrJoin body =>
        cases body with
        | create m =>
            by_cases h1 : m.variant ∉ cfg.variants
            · simp [handleConnectionIdle, h1] at hok
            by_cases h2 : cfg.limitConcurrentMatch ≤ ss.waiting.length
            · simp [handleConnectionIdle, h1, h2] at hok
            by_cases h3 : m.visibility = .Public ∧ cfg.limitPublicWaiting ≤ ss.publicM.length
            · simp [handleConnectionIdle, h1, h2, h3] at hok
            rcases hgen : generateRandomPasscodeInternalWithExceptions ss.waiting o.draws
              with _ | pass
            · simp [handleConnectionIdle, h1, h2, h3, hgen] at hok
            simp only [handleConnectionIdle, if_neg h1, if_neg h2, if_neg h3, hgen] at hok
            obtain rfl := Except.ok.inj hok
            exact ⟨Or.inr (Or.inl rfl), fun hpl => by simp at hpl⟩
        | join p =>
            by_cases hmem : p ∈ ss.waiting
            · simp only [handleConnectionIdle, if_pos hmem] at hok
              obtain rfl := Except.ok.inj hok
              exact ⟨Or.inr (Or.inr rfl), fun _ => ⟨p, rfl, hmem⟩⟩
            · simp only [handleConnectionIdle, if_neg hmem] at hok
              obtain rfl := Except.ok.inj hok
              exact ⟨Or.inl hidle, fun hpl => absurd (hidle.symm.trans hpl) (by decide)⟩
    | c2sMatchCancel =>
        simp only [handleConnectionIdle] at hok
        obtain rfl := Except.ok.inj hok
        exact ⟨Or.inl hidle, fun hpl => absurd (hidle.symm.trans hpl) (by decide)⟩
    | c2sForfeit =>
        simp only [handleConnectionIdle] at hok
        obtain rfl := Except.ok.inj hok
        exact ⟨Or.inl hidle, fun hpl => absurd (hidle.symm.trans hpl) (by decide)⟩
    | c2sMatchListRequest =>
        simp only [handleConnectionIdle] at hok
        obtain rfl := Except.ok.inj hok
        exact ⟨Or.inl hidle, fun hpl => absurd (hidle.symm.trans hpl) (by decide)⟩
    | _ => simp [handleConnectionIdle] at hok
  · intro cfg ss cs msg o r hok hw
    cases msg with
    | c2sMatchCancel =>
        rcases hm : cs.m with _ | m
        · simp [handleConnectionWaiting, hm] at hok
        · simp only [handleConnectionWaiting, hm] at hok
          obtain rfl := Except.ok.inj hok
          exact ⟨Or.inl rfl, fun hpl => by simp at hpl⟩
    | c2sMatchListRequest =>
        simp only [handleConnectionWaiting] at hok
        obtain rfl := Except.ok.inj hok
        exact ⟨Or.inr (Or.inl hw), fun hpl => absurd (hw.symm.trans hpl) (by decide)⟩
    | internalJoin =>
        rcases hm : cs.m with _ | m
        · simp [handleConnectionWaiting, hm] at hok
        · simp only [handleConnectionWaiting, hm] at hok
          obtain rfl := Except.ok.inj hok
          exact ⟨Or.inr (Or.inr rfl), fun _ => rfl⟩
    | _ => simp [handleConnectionWaiting] at hok
  · intro cfg ss cs msg o r hok hp
    cases msg with
    | c2sForfeit =>
        rcases hm : cs.m with _ | m
        · simp [handleConnectionPlaying, hm] at hok
        · simp only [handleConnectionPlaying, hm] at hok
          obtain rfl := Except.ok.inj hok
          exact Or.inl rfl
    | c2sOrS2CAction body =>
        by_cases hban : cfg.allowResetPuzzle = false ∧ body.actionType = .resetPuzzle
        · simp [handleConnectionPlaying, hban] at hok
        · simp only [handleConnectionPlaying, if_neg hban] at hok
          obtain rfl := Except.ok.inj hok
          exact Or.inr hp
    | c2sMatchListRequest =>
        simp only [handleConnectionPlaying] at hok
        obtain rfl := Except.ok.inj hok
        exact Or.inr hp
    | internalForfeit =>
        rcases hm : cs.m with _ | m
        · simp [handleConnectionPlaying, hm] at hok
        · simp only [handleConnectionPlaying, hm] at hok
          obtain rfl := Except.ok.inj hok
          exact Or.inl rfl
    | internalAction body =>
        simp only [handleConnectionPlaying] at hok
        obtain rfl := Except.ok.inj hok
        exact Or.inr hp
    | _ => simp [handleConnectionPlaying] at hok

/-- Witness for the amended C2, instantiating each conjunct: a Greet in Idle,
a Cancel in Waiting, and a relayed action in Playing. -/
theorem C2_amended_phase_transition_graph_witness :
    (handleConnectionIdle cfgDefault ssEmpty csIdle (.c2sGreet 1 0) idleOracle0 =
        .ok ⟨ssEmpty, csIdle, [.s2cGreet], []⟩ ∧
      csIdle.phase = .idle ∧
      (((⟨ssEmpty, csIdle, [.s2cGreet], []⟩ : HandlerResult).cs.phase = .idle ∨
        (⟨ssEmpty, csIdle, [.s2cGreet], []⟩ : HandlerResult).cs.phase = .waiting ∨
        (⟨ssEmpty, csIdle, [.s2cGreet], []⟩ : HandlerResult).cs.phase = .playing) ∧
       ((⟨ssEmpty, csIdle, [.s2cGreet], []⟩ : HandlerResult).cs.phase = .playing →
        ∃ p, Message.c2sGreet 1 0 = .c2sMatchCreateOrJoin (.join p) ∧
          p ∈ ssEmpty.waiting))) ∧
    (handleConnectionWaiting cfgDefault ssEmpty csWaiting .c2sMatchCancel waitOracle0 =
        .ok ⟨ssEmpty, csIdle, [.s2cMatchCancelResult .success], []⟩ ∧
      csWaiting.phase = .waiting ∧
      (((⟨ssEmpty, csIdle, [.s2cMatchCancelResult .success], []⟩ : HandlerResult).cs.phase = .idle ∨
        (⟨ssEmpty, csIdle, [.s2cMatchCancelResult .success], []⟩ : HandlerResult).cs.phase = .waiting ∨
        (⟨ssEmpty, csIdle, [.s2cMatchCancelResult .success], []⟩ : HandlerResult).cs.phase = .playing) ∧
       ((⟨ssEmpty, csIdle, [.s2cMatchCancelResult .success], []⟩ : HandlerResult).cs.phase = .playing →
        Message.c2sMatchCancel = Message.internalJoin))) ∧
    (handleConnectionPlaying cfgDefault ssEmpty csPlaying
        (.internalAction actionBodyC1) playOracle0 =
        .ok ⟨ssEmpty, csPlaying, [.c2sOrS2CAction actionBodyC1], []⟩ ∧
      csPlaying.phase = .playing ∧
      ((⟨ssEmpty, csPlaying, [.c2sOrS2CAction actionBodyC1], []⟩ : HandlerResult).cs.phase = .idle ∨
       (⟨ssEmpty, csPlaying, [.c2sOrS2CAction actionBodyC1], []⟩ : HandlerResult).cs.phase = .playing)) :=
  ⟨⟨rfl, rfl, C2_amended_phase_transition_graph.1 cfgDefault ssEmpty csIdle
      (.c2sGreet 1 0) idleOracle0 _ rfl rfl⟩,
   ⟨rfl, rfl, C2_amended_phase_transition_graph.2.1 cfgDefault ssEmpty csWaiting
      .c2sMatchCancel waitOracle0 _ rfl rfl⟩,
   ⟨rfl, rfl, C2_amended_phase_transition_graph.2.2 cfgDefault ssEmpty csPlaying
      (.internalAction actionBodyC1) playOracle0 _ rfl rfl⟩⟩

/-- Reversing a color that is not Random never yields Random. -/
theorem reversed_ne_random {c : OptionalColorWithRandom} (h : c ≠ .random) :
    c.reversed ≠ .random := by
  cases c <;> simp [OptionalColorWithRandom.reversed] at h ⊢

/-- A determined color is never Random. -/
theorem determined_ne_random (c : OptionalColorWithRandom) (d : Nat) :
    c.determined d ≠ .random := by
  cases c <;> simp [OptionalColorWithRandom.determined]
  split <;> simp

/-- C3: on InternalJoin in Waiting the host resolves its settings: a Random
variant is replaced by a member of the configured variants minus Random, a
Random color by White or Black (non-Random settings are kept); the local
client receives S2CMatchStart with the resolved color, the joiner receives
InternalMatchStart with the same resolved settings except the color reversed,
and neither the host's resolved color nor the joiner's reversed color is
Random. -/
theorem C3_internal_join_resolves_settings (cfg : ServerConfig) (ss : ServerState)
    (cs : ConnState) (m : MatchSettings) (o : WaitOracle) (hm : cs.m = some m)
    (hpool : cfg.variantsWithoutRandom ≠ []) :
    ∃ body1 : S2CMatchStartBody,
      handleConnectionWaiting cfg ss cs .internalJoin o =
        .ok ⟨ss, { cs with phase := .playing }, [.s2cMatchStart body1],
             [.internalMatchStart
               { body1 with m := { body1.m with color := body1.m.color.reversed } }]⟩ ∧
      (m.variant = cfg.randomVariant → body1.m.variant ∈ cfg.variantsWithoutRandom) ∧
      (m.variant ≠ cfg.randomVariant → body1.m.variant = m.variant) ∧
      (m.color = .random → body1.m.color = .white ∨ body1.m.color = .black) ∧
      (m.color ≠ .random → body1.m.color = m.color) ∧
      body1.m.color ≠ .random ∧
      body1.m.color.reversed ≠ .random ∧
      body1.m.clock = m.clock ∧ body1.m.passcode = m.passcode ∧
      body1.matchId = m.matchId ∧ body1.messageId = Int.ofNat o.now := by
  refine ⟨{ m := { MatchSettingsWithoutVisibility.ofMatchSettings m with
                   variant := variantDetermined cfg.randomVariant
                     cfg.variantsWithoutRandom o.variantIdx m.variant,
                   color := m.color.determined o.colorDraw },
            matchId := m.matchId, messageId := Int.ofNat o.now },
          ?_, ?_, ?_, ?_, ?_, ?_, ?_, rfl, rfl, rfl, rfl⟩
  · simp only [handleConnectionWaiting, hm]
    rfl
  · intro hvar
    unfold variantDetermined
    rw [if_pos hvar]
    have hlt : o.variantIdx % cfg.variantsWithoutRandom.length <
        cfg.variantsWithoutRandom.length :=
      Nat.mod_lt _ (List.length_pos.mpr hpool)
    rw [List.getD_eq_getElem _ _ hlt]
    exact List.getElem_mem _
  · intro hvar
    unfold variantDetermined
    rw [if_neg hvar]
  · intro hc
    show m.color.determined o.colorDraw = _ ∨ m.color.determined o.colorDraw = _
    rw [hc]
    unfold OptionalColorWithRandom.determined
    by_cases hd : o.colorDraw = 0
    · rw [if_pos hd]
      exact Or.inl rfl
    · rw [if_neg hd]
      exact Or.inr rfl
  · intro hc
    show m.color.determined o.colorDraw = m.color
    cases hcc : m.color <;> simp [OptionalColorWithRandom.determined]
    exact absurd hcc hc
  · exact determined_ne_random m.color o.colorDraw
  · exact reversed_ne_random (determined_ne_random m.color o.colorDraw)

/-- Witness for C3: a host with Random color and Random variant, a variant
pool of two entries, and a color draw of 0. -/
theorem C3_internal_join_resolves_settings_witness :
    csWaiting.m = some matchW ∧ cfgDefault.variantsWithoutRandom ≠ [] ∧
    (∃ body1 : S2CMatchStartBody,
      handleConnectionWaiting cfgDefault ssEmpty csWaiting .internalJoin waitOracle0 =
        .ok ⟨ssEmpty, { csWaiting with phase := .playing }, [.s2cMatchStart body1],
             [.internalMatchStart
               { body1 with m := { body1.m with color := body1.m.color.reversed } }]⟩ ∧
      (matchW.variant = cfgDefault.randomVariant →
        body1.m.variant ∈ cfgDefault.variantsWithoutRandom) ∧
      (matchW.variant ≠ cfgDefault.randomVariant → body1.m.variant = matchW.variant) ∧
      (matchW.color = .random → body1.m.color = .white ∨ body1.m.color = .black) ∧
      (matchW.color ≠ .random → body1.m.color = matchW.color) ∧
      body1.m.color ≠ .random ∧
      body1.m.color.reversed ≠ .random ∧
      body1.m.clock = matchW.clock ∧ body1.m.passcode = matchW.passcode ∧
      body1.matchId = matchW.matchId ∧ body1.messageId = Int.ofNat waitOracle0.now) :=
  ⟨rfl, by decide,
   C3_internal_join_resolves_settings cfgDefault ssEmpty csWaiting matchW waitOracle0
     rfl (by decide)⟩

/-- Witness for C4, instantiating the Create conjunct on an accepted Public
create against the empty registries. -/
theorem C4_public_subset_waiting_preserved_witness :
    handleConnectionIdle cfgDefault ssEmpty csIdle
        (.c2sMatchCreateOrJoin (.create createPublicSettings)) idleOracle0 =
      .ok resC4 ∧
    publicSubWaiting ssEmpty ∧
    publicSubWaiting resC4.ss :=
  ⟨rfl, fun p hp => by simp [keysOf, ssEmpty] at hp,
   C4_public_subset_waiting_preserved.1 cfgDefault ssEmpty csIdle
     createPublicSettings idleOracle0 resC4 rfl
     (fun p hp => by simp [keysOf, ssEmpty] at hp)⟩

/-- Filling the history array never changes its length. -/
theorem fillHistoryList_length (len : Nat) (es : List S2CMatchListServerHistoryMatch) :
    ∀ (i : Nat) (arr : List S2CMatchListServerHistoryMatch),
      (fillHistoryList len i es arr).length = arr.length := by
  induction es with
  | nil => intro i arr; rfl
  | cons e rest ih =>
      intro i arr
      rw [fillHistoryList, ih]
      simp

/-- Characterization of the history-array fill loop: slot `j` receives entry
`len - 1 - j - i` of the remaining entries when it lies in the written window,
and keeps its previous content otherwise. -/
theorem fillHistoryList_get? (len : Nat) (es : List S2CMatchListServerHistoryMatch) :
    ∀ (i : Nat) (arr : List S2CMatchListServerHistoryMatch),
      i + es.length ≤ len → len ≤ arr.length → ∀ j : Nat,
      (fillHistoryList len i es arr).get? j =
        if len ≤ j + i + es.length ∧ j + i < len then es.get? (len - 1 - j - i)
        else arr.get? j := by
  induction es with
  | nil =>
      intro i arr hle harr j
      rw [fillHistoryList, if_neg (by simp only [List.length_nil]; omega)]
  | cons e rest ih =>
      intro i arr hle harr j
      simp only [List.length_cons] at hle
      rw [fillHistoryList]
      rw [ih (i + 1) (arr.set (len - 1 - i) e) (by omega) (by simpa using harr) j]
      by_cases hc1 : len ≤ j + (i + 1) + rest.length ∧ j + (i + 1) < len
      · rw [if_pos hc1, if_pos (by simp only [List.length_cons]; omega)]
        have hstep : len - 1 - j - i = (len - 1 - j - (i + 1)) + 1 := by omega
        rw [hstep]
        rfl
      · rw [if_neg hc1]
        by_cases hc2 : len ≤ j + i + (e :: rest).length ∧ j + i < len
        · rw [if_pos hc2]
          simp only [List.length_cons] at hc2
          have hj : j = len - 1 - i := by omega
          subst hj
          have hlt : len - 1 - i < arr.length := by omega
          rw [List.get?_set_eq_of_lt e hlt]
          have h0 : len - 1 - (len - 1 - i) - i = 0 := by omega
          rw [h0]
          rfl
        · rw [if_neg hc2]
          simp only [List.length_cons] at hc2
          have hne : len - 1 - i ≠ j := by omega
          rw [List.get?_set_ne e arr hne]

/-- C9: in the S2CMatchList body the history count equals the log size (at
most 13), the array has exactly 13 slots, slot `j < size` holds the entry at
log position `size - 1 - j` (reverse insertion order, the newest entry at
slot 0), and every slot at or beyond the count keeps the zero-fill default. -/
theorem C9_match_list_history_newest_first (ss : ServerState) (now : Nat)
    (h13 : ss.history.length ≤ 13) :
    (handleMatchListRequest ss Option.none now).inner.serverHistoryMatchesCount =
      ss.history.length ∧
    (handleMatchListRequest ss Option.none now).inner.serverHistoryMatchesCount ≤ 13 ∧
    (handleMatchListRequest ss Option.none now).inner.serverHistoryMatches.length = 13 ∧
    (∀ j, j < ss.history.length →
      (handleMatchListRequest ss Option.none now).inner.serverHistoryMatches.get? j =
        (ss.history.get? (ss.history.length - 1 - j)).map
          (fun p => S2CMatchListServerHistoryMatch.ofHistory now p.2)) ∧
    (∀ j, ss.history.length ≤ j → j < 13 →
      (handleMatchListRequest ss Option.none now).inner.serverHistoryMatches.get? j =
        some defaultHistoryEntry) := by
  refine ⟨rfl, h13, ?_, ?_, ?_⟩
  · simp only [handleMatchListRequest, S2CMatchListBody.inner]
    rw [fillHistoryList_length]
    simp
  · intro j hj
    simp only [handleMatchListRequest, S2CMatchListBody.inner]
    rw [fillHistoryList_get? _ _ 0 _ (by simp) (by simp [h13]) j]
    rw [if_pos (by simp only [List.length_map]; omega)]
    rw [Nat.sub_zero, List.get?_map]
  · intro j hj1 hj2
    simp only [handleMatchListRequest, S2CMatchListBody.inner]
    rw [fillHistoryList_get? _ _ 0 _ (by simp) (by simp [h13]) j]
    rw [if_neg (by simp only [List.length_map]; omega)]
    rw [List.get?_eq_getElem?, List.getElem?_replicate, if_pos hj2]

/-- Witness for C9 on a single-entry history. -/
theorem C9_match_list_history_newest_first_witness :
    ssHist1.history.length ≤ 13 ∧
    ((handleMatchListRequest ssHist1 Option.none 5).inner.serverHistoryMatchesCount =
      ssHist1.history.length ∧
    (handleMatchListRequest ssHist1 Option.none 5).inner.serverHistoryMatchesCount ≤ 13 ∧
    (handleMatchListRequest ssHist1 Option.none 5).inner.serverHistoryMatches.length = 13 ∧
    (∀ j, j < ssHist1.history.length →
      (handleMatchListRequest ssHist1 Option.none 5).inner.serverHistoryMatches.get? j =
        (ssHist1.history.get? (ssHist1.history.length - 1 - j)).map
          (fun p => S2CMatchListServerHistoryMatch.ofHistory 5 p.2)) ∧
    (∀ j, ssHist1.history.length ≤ j → j < 13 →
      (handleMatchListRequest ssHist1 Option.none 5).inner.serverHistoryMatches.get? j =
        some defaultHistoryEntry)) :=
  ⟨by decide, C9_match_list_history_newest_first ssHist1 5 (by decide)⟩

end FiveDC
